import Mathlib

/-!
Verification development for the httpbin.deno.dev echo server.

The request-introspection core (src/info.ts: toObject, basicInfo, bodyInfo)
and the route handlers (basic auth, bearer auth, status, redirect, trailing
slash middleware) are embedded shallowly.  JavaScript strings are modelled as
lists of characters; the platform primitives the source relies on (String
split and startsWith, atob, Headers.get combining, URLSearchParams.getAll,
Uint8Array.toString) are modelled from their standard semantics.
-/

namespace Httpbin

/-- JavaScript strings are modelled as lists of characters. -/
abbrev JStr := List Char

/-- Shorthand turning a Lean string literal into the list-of-characters model. -/
def str (s : String) : JStr := s.toList

/-- JavaScript startsWith: the first characters of the receiver are the argument. -/
def startsWithL (p s : JStr) : Bool := s.take p.length == p

/-- JavaScript split with a single-character separator: split at every
occurrence, keeping empty fragments; the empty string splits to one empty
fragment. -/
def splitChar (c : Char) : JStr → List JStr
  | [] => [[]]
  | x :: xs =>
    if x = c then [] :: splitChar c xs
    else
      match splitChar c xs with
      | [] => [[x]]
      | r :: rs => (x :: r) :: rs

/-- ASCII whitespace stripped by the forgiving-base64 decoder. -/
def isB64Space (c : Char) : Bool :=
  c == ' ' || c == '\t' || c == '\n' || c == '\x0c' || c == '\r'

/-- Six-bit value of a base64 alphabet character, none outside the alphabet. -/
def b64Val (c : Char) : Option Nat :=
  if 'A' ≤ c ∧ c ≤ 'Z' then some (c.toNat - 65)
  else if 'a' ≤ c ∧ c ≤ 'z' then some (c.toNat - 71)
  else if '0' ≤ c ∧ c ≤ '9' then some (c.toNat + 4)
  else if c = '+' then some 62
  else if c = '/' then some 63
  else none

/-- Reassemble six-bit groups into bytes, discarding leftover bits, as the
forgiving-base64 decode does. -/
def b64Bytes : List Nat → List Nat
  | a :: b :: c :: d :: rest =>
      (a * 4 + b / 16) :: ((b % 16) * 16 + c / 4) :: ((c % 4) * 64 + d) :: b64Bytes rest
  | [a, b, c] => [a * 4 + b / 16, (b % 16) * 16 + c / 4]
  | [a, b] => [a * 4 + b / 16]
  | [_] => []
  | [] => []

/-- Strip at most two trailing padding characters. -/
def stripPadding (l : JStr) : JStr :=
  match l.reverse with
  | '=' :: '=' :: rest => rest.reverse
  | '=' :: rest => rest.reverse
  | _ => l

/-- WHATWG forgiving-base64 decode as performed by the platform atob: strip
ASCII whitespace, strip up to two trailing padding characters when the length
is a multiple of four, fail when the remaining length is 1 mod 4 or any
character is outside the alphabet, otherwise decode to the string whose code
points are the decoded bytes.  The none result models the
InvalidCharacterError exception thrown by atob. -/
def atob (s : JStr) : Option JStr :=
  let d0 := s.filter (fun c => !isB64Space c)
  let d1 := if d0.length % 4 == 0 then stripPadding d0 else d0
  if d1.length % 4 == 1 then none
  else
    match d1.mapM b64Val with
    | none => none
    | some vals => some ((b64Bytes vals).map Char.ofNat)

/-- Value side of a flattened query-parameter map: a scalar string when the
key has exactly one value, otherwise the array of values. -/
inductive FlatValue
  | str (s : JStr)
  | arr (l : List JStr)
deriving DecidableEq

/-- All values attached to a key, in original order.  This is
URLSearchParams.getAll, and also the per-name value list of a Headers
object. -/
def getValues (k : JStr) (l : List (JStr × JStr)) : List JStr :=
  (l.filter (fun p => p.1 == k)).map Prod.snd

/-- Headers.get: the values of the name combined with a comma and a space.
For a name that is absent this yields the empty string; the source only calls
it on names produced by the keys iterator, which are all present. -/
def headersGet (k : JStr) (hs : List (JStr × JStr)) : JStr :=
  List.intercalate (str ", ") (getValues k hs)

/-- First-occurrence deduplication, matching JavaScript object insertion
order for URLSearchParams keys. -/
def dedupFirst : List JStr → List JStr
  | [] => []
  | x :: xs => x :: (dedupFirst xs).filter (fun y => y != x)

/-- Code-unit order on header names; the Headers keys iterator yields names
in this sorted order. -/
def lexLeB : JStr → JStr → Bool
  | [], _ => true
  | _ :: _, [] => false
  | a :: as, b :: bs => if a = b then lexLeB as bs else decide (a.toNat ≤ b.toNat)

def hdrLe (a b : JStr) : Prop := lexLeB a b = true

instance : DecidableRel hdrLe := fun a b => inferInstanceAs (Decidable (lexLeB a b = true))

/-- The distinct header names in iteration order (sorted, lowercase names are
assumed normalized at construction as the platform does). -/
def headerKeys (hs : List (JStr × JStr)) : List JStr :=
  List.insertionSort hdrLe (dedupFirst (hs.map Prod.fst))

/-- The distinct query-parameter names in first-occurrence order. -/
def paramKeys (ps : List (JStr × JStr)) : List JStr :=
  dedupFirst (ps.map Prod.fst)

/-- The ternary on the URLSearchParams branch of toObject: a singleton value
list becomes the scalar, anything else stays the array. -/
def flattenVals (vs : List JStr) : FlatValue :=
  match vs with
  | [v] => FlatValue.str v
  | _ => FlatValue.arr vs

/-- The URLSearchParams branch of toObject (src/info.ts): for each key of the
input, getAll its values and store the scalar-or-array flattening. -/
def toObjectParams (ps : List (JStr × JStr)) : List (JStr × FlatValue) :=
  (paramKeys ps).map (fun k => (k, flattenVals (getValues k ps)))

/-- The Headers branch of toObject (src/info.ts): iterate the names, look up
the combined value with get, and keep the entry only when that value is
truthy, that is non-empty. -/
def toObjectHeaders (hs : List (JStr × JStr)) : List (JStr × JStr) :=
  (headerKeys hs).filterMap
    (fun k => if headersGet k hs = [] then none else some (k, headersGet k hs))

/-- Re-expand a flattened query entry back to the list of values it stands
for: absent keys have no values, a scalar stands for one value, an array for
its elements. -/
def expandFlat : Option FlatValue → List JStr
  | none => []
  | some (FlatValue.str v) => [v]
  | some (FlatValue.arr l) => l

/-- Re-expand a flattened header entry, which is always a scalar string. -/
def expandHeaderFlat : Option JStr → List JStr
  | none => []
  | some v => [v]

/-- Response shape of the basic-auth route: status, optional challenge
header, and the authorized/username body fields. -/
structure BasicAuthResponse where
  status : Nat
  wwwAuthenticate : Option JStr
  authorized : Bool
  username : Option JStr
deriving DecidableEq

/-- The common failure tail of the basic-auth handler. -/
def basic401 : BasicAuthResponse :=
  ⟨401, some (str "Basic realm=\"blah\""), false, none⟩

/-- The success response of the basic-auth handler. -/
def basicOk (u : JStr) : BasicAuthResponse := ⟨200, none, true, some u⟩

/-- The /auth/basic/:username/:password handler (src/unnamed/part_000).  The
call to atob is not wrapped in any try/catch, so an invalid-base64 second
token makes the handler throw; this is the error result. -/
def basicAuthHandler (username password : JStr) :
    Option JStr → Except Unit BasicAuthResponse
  | some h =>
    if startsWithL (str "Basic") h then
      match splitChar ' ' h with
      | [f0, f1] =>
        if f0 = str "Basic" then
          match atob f1 with
          | none => Except.error ()
          | some decoded =>
            match splitChar ':' decoded with
            | [u, p] =>
              if u = username ∧ p = password then Except.ok (basicOk username)
              else Except.ok basic401
            | _ => Except.ok basic401
        else Except.ok basic401
      | _ => Except.ok basic401
    else Except.ok basic401
  | none => Except.ok basic401

/-- Response shape of the bearer-auth route. -/
structure BearerAuthResponse where
  status : Nat
  wwwAuthenticate : Option JStr
  authorized : Bool
  token : Option JStr
deriving DecidableEq

/-- The common failure tail of the bearer-auth handler. -/
def bearer401 : BearerAuthResponse := ⟨401, some (str "Bearer"), false, none⟩

/-- The success response of the bearer-auth handler. -/
def bearerOk (t : JStr) : BearerAuthResponse := ⟨200, none, true, some t⟩

/-- The /auth/bearer handler (src/unnamed/part_000). -/
def bearerAuthHandler : Option JStr → BearerAuthResponse
  | some h =>
    if startsWithL (str "Bearer") h then
      match splitChar ' ' h with
      | [f0, f1] => if f0 = str "Bearer" then bearerOk f1 else bearer401
      | _ => bearer401
    else bearer401
  | none => bearer401

/-- Decimal digit character. -/
def digitChar (d : Nat) : Char :=
  if d = 0 then '0' else if d = 1 then '1' else if d = 2 then '2'
  else if d = 3 then '3' else if d = 4 then '4' else if d = 5 then '5'
  else if d = 6 then '6' else if d = 7 then '7' else if d = 8 then '8' else '9'

/-- Decimal rendering of a natural number, fuelled so that it reduces in the
kernel.  The fuel is always sufficient because a number is at least as large
as the number of its digits. -/
def natDigitsAux : Nat → Nat → JStr
  | 0, _ => []
  | fuel + 1, n =>
    if n < 10 then [digitChar n]
    else natDigitsAux fuel (n / 10) ++ [digitChar (n % 10)]

/-- Decimal rendering of a natural number, matching how JavaScript prints an
integral number below 2 to the 53 (exact, no exponent notation). -/
def natDigits (n : Nat) : JStr := natDigitsAux (n + 1) n

/-- Numeric value of a digit string, as computed by JavaScript unary plus on
an all-digit string (exact below 2 to the 53). -/
def parseDigits (s : JStr) : Nat :=
  s.foldl (fun n c => n * 10 + (c.toNat - 48)) 0

/-- Modelled platform fact: unary plus applied to a string never throws, so
the parse always succeeds; the catch branch of the status handler is
consequently unreachable, but it is kept to mirror the source. -/
def parseNumber (s : JStr) : Except Unit Nat := Except.ok (parseDigits s)

/-- Response of the /status/:code route: either the parsed status with a null
body, or a 400 with an error message body. -/
inductive StatusResult
  | ok (status : Nat)
  | badRequest (error : JStr)
deriving DecidableEq

/-- The out-of-range message interpolating the parsed number. -/
def rangeMsg (n : Nat) : JStr :=
  str "status code " ++ natDigits n ++ str " is outside the range [200, 599]"

/-- The /status/:code handler body (src/unnamed/part_000). -/
def statusHandler (code : JStr) : StatusResult :=
  match parseNumber code with
  | Except.error _ => StatusResult.badRequest (str "status code is not a number")
  | Except.ok n =>
    if n < 200 ∨ 599 < n then StatusResult.badRequest (rangeMsg n)
    else StatusResult.ok n

/-- The route pattern of /status/:code requires the segment to be one or more
digits; other segments never reach the handler. -/
def statusRouteMatches (code : JStr) : Bool :=
  !code.isEmpty && code.all Char.isDigit

/-- The /status/:code route as dispatched by the router: the handler runs
only when the digit pattern matches; none means the request falls through to
the not-found handling of the server. -/
def statusRoute (code : JStr) : Option StatusResult :=
  if statusRouteMatches code then some (statusHandler code) else none

/-- URLSearchParams.get: the first value of the key, or null. -/
def paramsGet (k : JStr) (ps : List (JStr × JStr)) : Option JStr :=
  (ps.find? (fun p => p.1 == k)).map Prod.snd

/-- Response of the /redirect route: a 400 error body, or a redirect carrying
the status and the Location value (the redirect response has no JSON body;
oak fills Location verbatim from the argument). -/
inductive RedirectResult
  | badRequest (error : JStr)
  | redirect (status : Nat) (location : JStr)
deriving DecidableEq

/-- The error body for a missing redirect target. -/
def redirectErrMsg : JStr := str "provide a `to` link in the URL"

/-- The /redirect handler (src/unnamed/part_000).  The truthiness test on the
parameter treats both a missing and an empty value as absent.  When the
permanent parameter is the string 1 or the string true the status is set to
301 before redirecting and oak keeps it; otherwise oak uses its default
redirect status 302 Found. -/
def redirectHandler (ps : List (JStr × JStr)) : RedirectResult :=
  match paramsGet (str "to") ps with
  | none => RedirectResult.badRequest redirectErrMsg
  | some t =>
    if t = [] then RedirectResult.badRequest redirectErrMsg
    else
      RedirectResult.redirect
        (if paramsGet (str "permanent") ps = some (str "1") ∨
            paramsGet (str "permanent") ps = some (str "true") then 301 else 302)
        t

/-- JavaScript endsWith for the single-character suffix slash. -/
def endsWithSlash (p : JStr) : Bool := p.getLast? == some '/'

/-- What the trailing-slash middleware does with a request path: either
respond with a 301 redirect, or pass the request on to the next middleware. -/
inductive MWAction
  | redirect (status : Nat) (location : JStr)
  | next
deriving DecidableEq

/-- The trailing-slash middleware (src/unnamed/part_000): a path that is not
the bare slash and ends with a slash is 301-redirected to the path with the
last character removed, and the downstream handler is not invoked. -/
def trailingSlashMW (p : JStr) : MWAction :=
  if p ≠ str "/" ∧ endsWithSlash p then MWAction.redirect 301 p.dropLast
  else MWAction.next

/-- Outcome of serving a request through the trailing-slash middleware: the
middleware either answered with a redirect itself, or the route handler ran
and produced its own result. -/
inductive ServeOutcome (α : Type)
  | redirected (status : Nat) (location : JStr)
  | routed (a : α)
deriving DecidableEq

/-- Compose the trailing-slash middleware with an arbitrary downstream
handler, as app.use does before router dispatch. -/
def serveWithTrailingSlash {α : Type} (handler : JStr → α) (p : JStr) : ServeOutcome α :=
  match trailingSlashMW p with
  | MWAction.redirect s l => ServeOutcome.redirected s l
  | MWAction.next => ServeOutcome.routed (handler p)

/-- A small model of parsed JSON values. -/
inductive JsonValue
  | null
  | bool (b : Bool)
  | num (n : Int)
  | str (s : JStr)
  | arr (elems : List JsonValue)
  | obj (fields : List (JStr × JsonValue))

/-- The body types oak discriminates on in bodyInfo. -/
inductive BodyType
  | json
  | formData
  | form
  | text
  | bytes
  | undef
deriving DecidableEq

/-- A request as bodyInfo consumes it.  Each await in bodyInfo is a suspend
point that can throw, so each branch value is an Except; the body call itself
can also throw.  The basic fields feed basicInfo. -/
structure OakRequest where
  ip : JStr
  url : JStr
  searchParams : List (JStr × JStr)
  headers : List (JStr × JStr)
  bodyType : Except Unit BodyType
  jsonVal : Except Unit JsonValue
  formDataVal : Except Unit (List (JStr × JStr) × Option (List (JStr × JStr)))
  formVal : Except Unit (List (JStr × JStr))
  textVal : Except Unit JStr
  bytesVal : Except Unit (List Nat)

/-- Uint8Array.toString: the bytes printed in decimal, joined by commas. -/
def uint8ArrayToString (bs : List Nat) : JStr :=
  List.intercalate (str ",") (bs.map natDigits)

/-- The tagged decoded-body union bodyInfo produces.  Each constructor is one
type tag with the value shape of that tag; nullBody is the fall-through tag
with a null value, and error is the sentinel produced by the catch-all with
type error and value null. -/
inductive DecodedBody
  | json (v : JsonValue)
  | formData (fields : List (JStr × JStr)) (files : Option (List (JStr × JStr)))
  | form (v : List (JStr × FlatValue))
  | text (v : JStr)
  | bytes (v : JStr)
  | nullBody (t : BodyType)
  | error

/-- bodyInfo (src/info.ts): dispatch on the declared body type, await and
shape the value, and convert any exception from any step into the error
sentinel.  The files field of a multipart read is null-coalesced. -/
def bodyInfo (r : OakRequest) : DecodedBody :=
  match r.bodyType with
  | Except.error _ => DecodedBody.error
  | Except.ok t =>
    match t with
    | BodyType.json =>
      match r.jsonVal with
      | Except.ok v => DecodedBody.json v
      | Except.error _ => DecodedBody.error
    | BodyType.formData =>
      match r.formDataVal with
      | Except.ok fd => DecodedBody.formData fd.1 fd.2
      | Except.error _ => DecodedBody.error
    | BodyType.form =>
      match r.formVal with
      | Except.ok ps => DecodedBody.form (toObjectParams ps)
      | Except.error _ => DecodedBody.error
    | BodyType.text =>
      match r.textVal with
      | Except.ok s => DecodedBody.text s
      | Except.error _ => DecodedBody.error
    | BodyType.bytes =>
      match r.bytesVal with
      | Except.ok bs => DecodedBody.bytes (uint8ArrayToString bs)
      | Except.error _ => DecodedBody.error
    | BodyType.undef => DecodedBody.nullBody BodyType.undef

/-- Whether the decoding of the request raises anywhere: the body call throws
or the awaited value of the selected branch throws. -/
def isErr {ε α : Type} : Except ε α → Bool
  | Except.error _ => true
  | Except.ok _ => false

def decodeRaises (r : OakRequest) : Bool :=
  match r.bodyType with
  | Except.error _ => true
  | Except.ok BodyType.json => isErr r.jsonVal
  | Except.ok BodyType.formData => isErr r.formDataVal
  | Except.ok BodyType.form => isErr r.formVal
  | Except.ok BodyType.text => isErr r.textVal
  | Except.ok BodyType.bytes => isErr r.bytesVal
  | Except.ok BodyType.undef => false

/-- The basic request descriptor produced by basicInfo (src/info.ts). -/
structure BasicDescriptor where
  origin : JStr
  url : JStr
  searchParams : List (JStr × FlatValue)
  headers : List (JStr × JStr)

def basicInfo (r : OakRequest) : BasicDescriptor :=
  ⟨r.ip, r.url, toObjectParams r.searchParams, toObjectHeaders r.headers⟩

/-- The response of the body-echoing routes (post, put, patch, delete): the
handler only sets the body, so oak serves it with the default status 200. -/
structure EchoResponse where
  status : Nat
  info : BasicDescriptor
  body : DecodedBody

def postHandler (r : OakRequest) : EchoResponse :=
  ⟨200, basicInfo r, bodyInfo r⟩

instance {ε α : Type} [DecidableEq ε] [DecidableEq α] : DecidableEq (Except ε α) := fun x y =>
  match x, y with
  | Except.error a, Except.error b =>
    if h : a = b then Decidable.isTrue (by rw [h])
    else Decidable.isFalse (fun hc => h (by injection hc))
  | Except.error _, Except.ok _ => Decidable.isFalse (fun hc => Except.noConfusion hc)
  | Except.ok _, Except.error _ => Decidable.isFalse (fun hc => Except.noConfusion hc)
  | Except.ok a, Except.ok b =>
    if h : a = b then Decidable.isTrue (by rw [h])
    else Decidable.isFalse (fun hc => h (by injection hc))

/-- A concrete request whose declared type is json and whose awaited body
value throws, exercising the catch-all of bodyInfo. -/
def errJsonRequest : OakRequest :=
  { ip := str "127.0.0.1", url := str "http://localhost:3000/post",
    searchParams := [], headers := [],
    bodyType := Except.ok BodyType.json, jsonVal := Except.error (),
    formDataVal := Except.ok ([], none), formVal := Except.ok [],
    textVal := Except.ok [], bytesVal := Except.ok [] }

/-! Helper lemmas. -/

theorem splitChar_ne_nil (c : Char) : ∀ a : JStr, splitChar c a ≠ [] := by
  intro a
  induction a with
  | nil => simp [splitChar]
  | cons x xs ih =>
    simp only [splitChar]
    by_cases hxc : x = c
    · simp [hxc]
    · rw [if_neg hxc]
      cases hsp : splitChar c xs with
      | nil => simp
      | cons r rs => simp

theorem splitChar_take (c : Char) :
    ∀ (a w : JStr) (l : List JStr), splitChar c a = w :: l → a.take w.length = w := by
  intro a
  induction a with
  | nil =>
    intro w l h
    simp only [splitChar] at h
    injection h with h1 h2
    subst h1
    simp
  | cons x xs ih =>
    intro w l h
    simp only [splitChar] at h
    by_cases hxc : x = c
    · rw [if_pos hxc] at h
      injection h with h1 h2
      subst h1
      simp
    · rw [if_neg hxc] at h
      cases hsp : splitChar c xs with
      | nil => exact absurd hsp (splitChar_ne_nil c xs)
      | cons r rs =>
        rw [hsp] at h
        injection h with h1 h2
        subst h1
        simp only [List.length_cons, List.take_succ_cons]
        rw [ih r rs hsp]

theorem splitChar_startsWith (c : Char) (a w : JStr) (l : List JStr)
    (h : splitChar c a = w :: l) : startsWithL w a = true := by
  unfold startsWithL
  rw [splitChar_take c a w l h]
  simp

theorem mem_dedupFirst {k : JStr} : ∀ {l : List JStr}, k ∈ dedupFirst l ↔ k ∈ l := by
  intro l
  induction l with
  | nil => simp [dedupFirst]
  | cons x xs ih =>
    simp only [dedupFirst, List.mem_cons, List.mem_filter, ih, bne_iff_ne]
    by_cases hkx : k = x
    · simp [hkx]
    · simp [hkx]

theorem lookup_keys_map {α : Type} (g : JStr → α) :
    ∀ (l : List JStr) (k : JStr),
      List.lookup k (l.map (fun x => (x, g x))) = if k ∈ l then some (g k) else none := by
  intro l
  induction l with
  | nil => intro k; simp
  | cons x t ih =>
    intro k
    by_cases hkx : k = x
    · subst hkx
      simp [List.lookup_cons]
    · simp [List.lookup_cons, beq_false_of_ne hkx, ih k, List.mem_cons, hkx]

theorem lookup_keys_filterMap (g : JStr → JStr) :
    ∀ (l : List JStr) (k : JStr),
      List.lookup k (l.filterMap (fun x => if g x = [] then none else some (x, g x))) =
        if k ∈ l ∧ g k ≠ [] then some (g k) else none := by
  intro l
  induction l with
  | nil => intro k; simp
  | cons x t ih =>
    intro k
    rw [List.filterMap_cons]
    by_cases hgx : g x = []
    · rw [if_pos hgx, ih k]
      by_cases hkx : k = x
      · subst hkx
        simp [hgx]
      · simp [List.mem_cons, hkx]
    · rw [if_neg hgx]
      by_cases hkx : k = x
      · subst hkx
        simp [List.lookup_cons, hgx]
      · simp [List.lookup_cons, beq_false_of_ne hkx, ih k, List.mem_cons, hkx]

theorem getValues_ne_nil (k : JStr) (l : List (JStr × JStr)) :
    getValues k l ≠ [] ↔ k ∈ l.map Prod.fst := by
  unfold getValues
  constructor
  · intro h
    rcases List.exists_mem_of_ne_nil _ h with ⟨v, hv⟩
    rcases List.mem_map.mp hv with ⟨p, hp, hpv⟩
    rcases List.mem_filter.mp hp with ⟨hmem, hkey⟩
    exact List.mem_map.mpr ⟨p, hmem, by simpa using hkey⟩
  · intro h hnil
    rcases List.mem_map.mp h with ⟨p, hp, hpk⟩
    have : p ∈ l.filter (fun p => p.1 == k) :=
      List.mem_filter.mpr ⟨hp, by simp [hpk]⟩
    have : p.2 ∈ (l.filter (fun p => p.1 == k)).map Prod.snd :=
      List.mem_map.mpr ⟨p, this, rfl⟩
    rw [hnil] at this
    exact absurd this (List.not_mem_nil _)

theorem lookup_toObjectParams (ps : List (JStr × JStr)) (k : JStr) :
    List.lookup k (toObjectParams ps) =
      if k ∈ ps.map Prod.fst then some (flattenVals (getValues k ps)) else none := by
  unfold toObjectParams paramKeys
  rw [lookup_keys_map]
  simp only [mem_dedupFirst]

theorem lookup_toObjectHeaders (hs : List (JStr × JStr)) (k : JStr) :
    List.lookup k (toObjectHeaders hs) =
      if headersGet k hs = [] then none else some (headersGet k hs) := by
  unfold toObjectHeaders
  rw [lookup_keys_filterMap]
  by_cases hg : headersGet k hs = []
  · simp [hg]
  · have hvals : getValues k hs ≠ [] := by
      intro h0
      apply hg
      unfold headersGet
      rw [h0]
      rfl
    have hmem : k ∈ headerKeys hs := by
      unfold headerKeys
      rw [List.mem_insertionSort, mem_dedupFirst]
      exact (getValues_ne_nil k hs).mp hvals
    rw [if_pos ⟨hmem, hg⟩, if_neg hg]

theorem expandFlat_lookup (ps : List (JStr × JStr)) (k : JStr) :
    expandFlat (List.lookup k (toObjectParams ps)) = getValues k ps := by
  rw [lookup_toObjectParams]
  by_cases hk : k ∈ ps.map Prod.fst
  · rw [if_pos hk]
    have hne : getValues k ps ≠ [] := (getValues_ne_nil k ps).mpr hk
    cases hvs : getValues k ps with
    | nil => exact absurd hvs hne
    | cons a t =>
      cases t with
      | nil => simp [flattenVals, expandFlat]
      | cons b t2 => simp [flattenVals, expandFlat]
  · rw [if_neg hk]
    have h0 : getValues k ps = [] := by
      by_contra hne
      exact hk ((getValues_ne_nil k ps).mp hne)
    simp [expandFlat, h0]

theorem digitChar_toNat {d : Nat} (h : d < 10) : (digitChar d).toNat = 48 + d := by
  interval_cases d <;> decide

theorem digitChar_isDigit (d : Nat) : (digitChar d).isDigit = true := by
  unfold digitChar
  split_ifs <;> decide

theorem parseDigits_append_digit (xs : JStr) (c : Char) :
    parseDigits (xs ++ [c]) = parseDigits xs * 10 + (c.toNat - 48) := by
  unfold parseDigits
  rw [List.foldl_append]
  rfl

theorem parseDigits_natDigitsAux :
    ∀ fuel n : Nat, n < fuel → parseDigits (natDigitsAux fuel n) = n := by
  intro fuel
  induction fuel with
  | zero => intro n h; omega
  | succ f ih =>
    intro n h
    unfold natDigitsAux
    by_cases h10 : n < 10
    · rw [if_pos h10]
      show List.foldl _ 0 [digitChar n] = n
      simp only [List.foldl_cons, List.foldl_nil]
      have h48 := digitChar_toNat h10
      omega
    · rw [if_neg h10]
      rw [parseDigits_append_digit]
      have hdiv : n / 10 < f := by
        have h1 : n / 10 < n := Nat.div_lt_self (by omega) (by omega)
        omega
      rw [ih (n / 10) hdiv]
      have h48 := digitChar_toNat (Nat.mod_lt n (by omega) : n % 10 < 10)
      omega

theorem parseDigits_natDigits (n : Nat) : parseDigits (natDigits n) = n :=
  parseDigits_natDigitsAux (n + 1) n (Nat.lt_succ_self n)

theorem natDigitsAux_digits :
    ∀ fuel n : Nat, n < fuel →
      natDigitsAux fuel n ≠ [] ∧ (natDigitsAux fuel n).all Char.isDigit = true := by
  intro fuel
  induction fuel with
  | zero => intro n h; omega
  | succ f ih =>
    intro n h
    unfold natDigitsAux
    by_cases h10 : n < 10
    · rw [if_pos h10]
      exact ⟨by simp, by simp [digitChar_isDigit]⟩
    · rw [if_neg h10]
      have hdiv : n / 10 < f := by
        have h1 : n / 10 < n := Nat.div_lt_self (by omega) (by omega)
        omega
      obtain ⟨h1, h2⟩ := ih (n / 10) hdiv
      refine ⟨by simp, ?_⟩
      simp [List.all_append, h2, digitChar_isDigit]

theorem natDigits_matches (n : Nat) : statusRouteMatches (natDigits n) = true := by
  obtain ⟨h1, h2⟩ := natDigitsAux_digits (n + 1) n (Nat.lt_succ_self n)
  unfold statusRouteMatches natDigits
  cases hl : natDigitsAux (n + 1) n with
  | nil => exact absurd hl h1
  | cons a t =>
    rw [hl] at h2
    simp [h2]

theorem basicAuthHandler_cases (u p : JStr) (h : Option JStr) :
    basicAuthHandler u p h = Except.ok basic401 ∨
      basicAuthHandler u p h = Except.ok (basicOk u) ∨
      basicAuthHandler u p h = Except.error () := by
  cases h with
  | none => exact Or.inl rfl
  | some a =>
    simp only [basicAuthHandler]
    by_cases hst : startsWithL (str "Basic") a = true
    · rw [if_pos hst]
      cases hsp : splitChar ' ' a with
      | nil => exact Or.inl rfl
      | cons f0 rest =>
        cases rest with
        | nil => exact Or.inl rfl
        | cons f1 rest2 =>
          cases rest2 with
          | cons f2 rest3 => exact Or.inl rfl
          | nil =>
            dsimp only
            by_cases hf0 : f0 = str "Basic"
            · rw [if_pos hf0]
              cases hat : atob f1 with
              | none => exact Or.inr (Or.inr rfl)
              | some d =>
                dsimp only
                cases hco : splitChar ':' d with
                | nil => exact Or.inl rfl
                | cons x restc =>
                  cases restc with
                  | nil => exact Or.inl rfl
                  | cons y restc2 =>
                    cases restc2 with
                    | cons z restc3 => exact Or.inl rfl
                    | nil =>
                      dsimp only
                      by_cases hup : x = u ∧ y = p
                      · rw [if_pos hup]
                        exact Or.inr (Or.inl rfl)
                      · rw [if_neg hup]
                        exact Or.inl rfl
            · rw [if_neg hf0]
              exact Or.inl rfl
    · rw [if_neg hst]
      exact Or.inl rfl

/-! Claim theorems. -/

/-- Claim C5: a GET to the basic-auth route whose Authorization header splits
on spaces into exactly the scheme token Basic and one further token, where
that token base64-decodes to a string splitting on the colon into exactly the
two path parameters (case-sensitively), is answered 200 with authorized true
and the username echoed. -/
theorem basicAuth_success (u p t d h : JStr)
    (hsplit : splitChar ' ' h = [str "Basic", t])
    (hdec : atob t = some d)
    (hcolon : splitChar ':' d = [u, p]) :
    basicAuthHandler u p (some h) = Except.ok (basicOk u) := by
  have hst : startsWithL (str "Basic") h = true :=
    splitChar_startsWith ' ' h (str "Basic") [t] hsplit
  simp only [basicAuthHandler]
  rw [if_pos hst, hsplit]
  dsimp only
  rw [if_pos rfl, hdec]
  dsimp only
  rw [hcolon]
  dsimp only
  rw [if_pos ⟨rfl, rfl⟩]

theorem basicAuth_success_witness :
    basicAuthHandler (str "hello") (str "world") (some (str "Basic aGVsbG86d29ybGQ=")) =
      Except.ok (basicOk (str "hello")) :=
  basicAuth_success (str "hello") (str "world") (str "aGVsbG86d29ybGQ=")
    (str "hello:world") (str "Basic aGVsbG86d29ybGQ=") (by decide) (by decide) (by decide)

/-- Claim C3, counterexample: with the Authorization header Basic followed by
an exclamation mark, the second token is not valid base64, atob throws
outside any try/catch, and the exception escapes the handler instead of
producing the claimed 401 response. -/
theorem basicAuth_invalid_base64_throws :
    basicAuthHandler (str "user") (str "pass") (some (str "Basic !")) = Except.error () := by
  rfl

/-- Claim C3, amended: an absent header yields the 401 challenge response;
every outcome of the handler other than the success response and the
uncaught-exception outcome is exactly the 401 challenge response with the
WWW-Authenticate Basic realm header and the unauthorized null-username body;
and when the header splits into the Basic scheme plus a second token that is
not valid base64, the handler throws rather than answering 401. -/
theorem basicAuth_failure_401 (u p : JStr) (h : Option JStr) :
    (h = none → basicAuthHandler u p h = Except.ok basic401) ∧
    (basicAuthHandler u p h ≠ Except.error () →
      basicAuthHandler u p h ≠ Except.ok (basicOk u) →
      basicAuthHandler u p h = Except.ok basic401) ∧
    (∀ a t, h = some a → splitChar ' ' a = [str "Basic", t] → atob t = none →
      basicAuthHandler u p h = Except.error ()) := by
  refine ⟨?_, ?_, ?_⟩
  · intro hn
    subst hn
    rfl
  · intro hne hnok
    rcases basicAuthHandler_cases u p h with h1 | h2 | h3
    · exact h1
    · exact absurd h2 hnok
    · exact absurd h3 hne
  · intro a t hha hsp hat
    subst hha
    have hst : startsWithL (str "Basic") a = true :=
      splitChar_startsWith ' ' a (str "Basic") [t] hsp
    simp only [basicAuthHandler]
    rw [if_pos hst, hsp]
    dsimp only
    rw [if_pos rfl, hat]

theorem basicAuth_failure_401_witness :
    basicAuthHandler (str "u") (str "p") none = Except.ok basic401 ∧
    basicAuthHandler (str "u") (str "p") (some (str "Nope")) = Except.ok basic401 ∧
    basicAuthHandler (str "u") (str "p") (some (str "Basic %%")) = Except.error () :=
  ⟨(basicAuth_failure_401 (str "u") (str "p") none).1 rfl,
   (basicAuth_failure_401 (str "u") (str "p") (some (str "Nope"))).2.1
     (by decide) (by decide),
   (basicAuth_failure_401 (str "u") (str "p") (some (str "Basic %%"))).2.2
     (str "Basic %%") (str "%%") rfl (by decide) (by decide)⟩

/-- Claim C6: a GET to the bearer-auth route whose Authorization header
splits on spaces into exactly the scheme token Bearer and one further token
is answered 200 with authorized true and that token echoed verbatim; in every
other case the route answers 401 with the WWW-Authenticate Bearer header and
the unauthorized null-token body. -/
theorem bearerAuth_c6 (h : Option JStr) :
    (∀ a t, h = some a → splitChar ' ' a = [str "Bearer", t] →
      bearerAuthHandler h = bearerOk t) ∧
    ((∀ a t, ¬(h = some a ∧ splitChar ' ' a = [str "Bearer", t])) →
      bearerAuthHandler h = bearer401) := by
  constructor
  · intro a t hha hsp
    subst hha
    have hst : startsWithL (str "Bearer") a = true :=
      splitChar_startsWith ' ' a (str "Bearer") [t] hsp
    simp only [bearerAuthHandler]
    rw [if_pos hst, hsp]
    dsimp only
    rw [if_pos rfl]
  · intro hno
    cases h with
    | none => rfl
    | some a =>
      simp only [bearerAuthHandler]
      by_cases hst : startsWithL (str "Bearer") a = true
      · rw [if_pos hst]
        cases hsp : splitChar ' ' a with
        | nil => rfl
        | cons f0 rest =>
          cases rest with
          | nil => rfl
          | cons f1 rest2 =>
            cases rest2 with
            | cons f2 rest3 => rfl
            | nil =>
              dsimp only
              by_cases hf0 : f0 = str "Bearer"
              · exact absurd ⟨rfl, by rw [hsp, hf0]⟩ (hno a f1)
              · rw [if_neg hf0]
      · rw [if_neg hst]

theorem bearerAuth_c6_witness :
    bearerAuthHandler (some (str "Bearer asdfghjkl")) = bearerOk (str "asdfghjkl") ∧
    bearerAuthHandler none = bearer401 :=
  ⟨(bearerAuth_c6 (some (str "Bearer asdfghjkl"))).1 (str "Bearer asdfghjkl")
     (str "asdfghjkl") rfl (by decide),
   (bearerAuth_c6 none).2 (fun a t hc => Option.noConfusion hc.1)⟩

/-- Claim C2, counterexample: for a Headers input carrying two values for the
name x, the flattener stores the single combined string produced by the get
method, not the ordered sequence of the two values, so re-expanding does not
recover the original values; moreover a header whose only value is the empty
string is dropped from the output entirely. -/
theorem toObject_headers_counterexample :
    expandHeaderFlat (List.lookup (str "x")
        (toObjectHeaders [(str "x", str "a"), (str "x", str "b")])) ≠
      getValues (str "x") [(str "x", str "a"), (str "x", str "b")] ∧
    toObjectHeaders [(str "y", str "")] = [] := by
  decide

/-- Claim C2, amended: for query parameters the flattener maps a key with
exactly one value to that scalar, a key with two or more values to the
ordered sequence of all its values, never to a null value, and flattening
then re-expanding recovers the values of every key; for headers the
flattener maps each present name to the single combined string the get
method returns (the values joined by a comma and a space), dropping names
whose combined value is empty, so the sequence and round-trip properties do
not hold on the headers side. -/
theorem toObject_flatten_amended (ps hs : List (JStr × JStr)) (k v : JStr)
    (vs : List JStr) :
    (getValues k ps = [v] →
      List.lookup k (toObjectParams ps) = some (FlatValue.str v)) ∧
    (getValues k ps = vs → 2 ≤ vs.length →
      List.lookup k (toObjectParams ps) = some (FlatValue.arr vs)) ∧
    expandFlat (List.lookup k (toObjectParams ps)) = getValues k ps ∧
    List.lookup k (toObjectHeaders hs) =
      (if headersGet k hs = [] then none else some (headersGet k hs)) := by
  refine ⟨?_, ?_, expandFlat_lookup ps k, lookup_toObjectHeaders hs k⟩
  · intro hv
    have hmem : k ∈ ps.map Prod.fst :=
      (getValues_ne_nil k ps).mp (by rw [hv]; simp)
    rw [lookup_toObjectParams, if_pos hmem, hv]
    rfl
  · intro hvs hlen
    have hne : getValues k ps ≠ [] := by
      rw [hvs]
      intro h0
      rw [h0] at hlen
      simp at hlen
    have hmem : k ∈ ps.map Prod.fst := (getValues_ne_nil k ps).mp hne
    rw [lookup_toObjectParams, if_pos hmem, hvs]
    cases vs with
    | nil => simp at hlen
    | cons a t =>
      cases t with
      | nil => simp at hlen
      | cons b t2 => rfl

theorem toObject_flatten_amended_witness :
    List.lookup (str "a") (toObjectParams [(str "a", str "1")]) =
      some (FlatValue.str (str "1")) ∧
    List.lookup (str "b") (toObjectParams [(str "b", str "1"), (str "b", str "2")]) =
      some (FlatValue.arr [str "1", str "2"]) :=
  ⟨(toObject_flatten_amended [(str "a", str "1")] [] (str "a") (str "1") []).1
     (by decide),
   (toObject_flatten_amended [(str "b", str "1"), (str "b", str "2")] [] (str "b")
     [] [str "1", str "2"]).2.1 (by decide) (by decide)⟩

/-- Claim C7: for URLSearchParams input the flattener maps a key with exactly
one value to that scalar string and a key with several values to the sequence
of its values; a key is present in the output exactly when it is present in
the input, independent of the values, so falsy (empty-string) values are not
dropped; and the empty input yields the empty map.  The operation is a pure
total function of the input, so it has no side effects and raises no
error by construction. -/
theorem toObject_params_c7 (ps : List (JStr × JStr)) (k v : JStr)
    (vs : List JStr) :
    (getValues k ps = [v] →
      List.lookup k (toObjectParams ps) = some (FlatValue.str v)) ∧
    (getValues k ps = vs → 2 ≤ vs.length →
      List.lookup k (toObjectParams ps) = some (FlatValue.arr vs)) ∧
    ((List.lookup k (toObjectParams ps)).isSome ↔ k ∈ ps.map Prod.fst) ∧
    toObjectParams [] = [] := by
  refine ⟨?_, ?_, ?_, rfl⟩
  · intro hv
    have hmem : k ∈ ps.map Prod.fst :=
      (getValues_ne_nil k ps).mp (by rw [hv]; simp)
    rw [lookup_toObjectParams, if_pos hmem, hv]
    rfl
  · intro hvs hlen
    have hne : getValues k ps ≠ [] := by
      rw [hvs]
      intro h0
      rw [h0] at hlen
      simp at hlen
    have hmem : k ∈ ps.map Prod.fst := (getValues_ne_nil k ps).mp hne
    rw [lookup_toObjectParams, if_pos hmem, hvs]
    cases vs with
    | nil => simp at hlen
    | cons a t =>
      cases t with
      | nil => simp at hlen
      | cons b t2 => rfl
  · rw [lookup_toObjectParams]
    by_cases hk : k ∈ ps.map Prod.fst
    · simp [hk]
    · simp [hk]

theorem toObject_params_c7_witness :
    List.lookup (str "a") (toObjectParams [(str "a", str "")]) =
      some (FlatValue.str (str "")) ∧
    List.lookup (str "q") (toObjectParams [(str "q", str ""), (str "q", str "2")]) =
      some (FlatValue.arr [str "", str "2"]) :=
  ⟨(toObject_params_c7 [(str "a", str "")] (str "a") (str "") []).1 (by decide),
   (toObject_params_c7 [(str "q", str ""), (str "q", str "2")] (str "q") []
     [str "", str "2"]).2.1 (by decide) (by decide)⟩

/-- Claim C4, counterexample: the status route pattern requires one or more
digits, so the segment abc never matches and the handler is never invoked for
it; the request falls through instead of receiving the claimed 400. -/
theorem statusRoute_abc_unmatched : statusRoute (str "abc") = none := by
  decide

/-- Claim C4, amended: for digit-matched codes the parse never fails (the
not-a-number branch is unreachable); a parsed value inside 200 to 599
inclusive becomes exactly that response status with a null body; a parsed
value outside the range becomes a 400 with the range message (stated below
the exactness bound of the floating-point parse); the concrete codes 42, 600
and 1000 produce the 400 range message; abc does not match the route; and
every integer between 200 and 599, written in decimal, is echoed as exactly
that status. -/
theorem statusCode_amended :
    (∀ code : JStr, statusRouteMatches code = true →
      200 ≤ parseDigits code → parseDigits code ≤ 599 →
      statusRoute code = some (StatusResult.ok (parseDigits code))) ∧
    (∀ code : JStr, statusRouteMatches code = true →
      (parseDigits code < 200 ∨ 599 < parseDigits code) →
      parseDigits code < 2 ^ 53 →
      statusRoute code = some (StatusResult.badRequest (rangeMsg (parseDigits code)))) ∧
    statusRoute (str "42") =
      some (StatusResult.badRequest (str "status code 42 is outside the range [200, 599]")) ∧
    statusRoute (str "600") =
      some (StatusResult.badRequest (str "status code 600 is outside the range [200, 599]")) ∧
    statusRoute (str "1000") =
      some (StatusResult.badRequest (str "status code 1000 is outside the range [200, 599]")) ∧
    statusRoute (str "abc") = none ∧
    (∀ n : Nat, 200 ≤ n → n ≤ 599 →
      statusRoute (natDigits n) = some (StatusResult.ok n)) := by
  refine ⟨?_, ?_, by decide, by decide, by decide, by decide, ?_⟩
  · intro code hm h1 h2
    unfold statusRoute
    rw [if_pos hm]
    unfold statusHandler parseNumber
    dsimp only
    rw [if_neg (by omega)]
  · intro code hm hout hbound
    unfold statusRoute
    rw [if_pos hm]
    unfold statusHandler parseNumber
    dsimp only
    rw [if_pos hout]
  · intro n h1 h2
    unfold statusRoute
    rw [if_pos (natDigits_matches n)]
    unfold statusHandler parseNumber
    dsimp only
    rw [parseDigits_natDigits]
    rw [if_neg (by omega)]

theorem statusCode_amended_witness :
    statusRoute (str "204") = some (StatusResult.ok (parseDigits (str "204"))) ∧
    statusRoute (str "99") =
      some (StatusResult.badRequest (rangeMsg (parseDigits (str "99")))) ∧
    statusRoute (natDigits 304) = some (StatusResult.ok 304) :=
  ⟨statusCode_amended.1 (str "204") (by decide) (by decide) (by decide),
   statusCode_amended.2.1 (str "99") (by decide) (by decide) (by decide),
   statusCode_amended.2.2.2.2.2.2 304 (by decide) (by decide)⟩

/-- Claim C8, counterexample: with the to parameter present but equal to the
empty string, the handler answers 400 with the missing-target error body
rather than emitting a redirect carrying the empty Location the claim
describes for every present to value. -/
theorem redirect_empty_to_counterexample :
    redirectHandler [(str "to", str "")] = RedirectResult.badRequest redirectErrMsg := by
  decide

/-- Claim C8, amended: an absent to parameter yields the 400 error body; a
present and non-empty to value yields a redirect whose Location is the value
verbatim, with status 301 when the permanent parameter is the string 1 or the
string true and the default redirect status 302 otherwise.  (A present but
empty to value also yields the 400, as the truthiness test conflates it with
absence.) -/
theorem redirect_amended (ps : List (JStr × JStr)) :
    (paramsGet (str "to") ps = none →
      redirectHandler ps = RedirectResult.badRequest redirectErrMsg) ∧
    (∀ t, paramsGet (str "to") ps = some t → t ≠ [] →
      redirectHandler ps =
        RedirectResult.redirect
          (if paramsGet (str "permanent") ps = some (str "1") ∨
              paramsGet (str "permanent") ps = some (str "true") then 301 else 302)
          t) := by
  constructor
  · intro h0
    unfold redirectHandler
    rw [h0]
  · intro t ht hne
    unfold redirectHandler
    rw [ht]
    dsimp only
    rw [if_neg hne]

theorem redirect_amended_witness :
    redirectHandler [] = RedirectResult.badRequest redirectErrMsg ∧
    redirectHandler [(str "to", str "https://example.com"), (str "permanent", str "true")] =
      RedirectResult.redirect 301 (str "https://example.com") ∧
    redirectHandler [(str "to", str "https://example.com")] =
      RedirectResult.redirect 302 (str "https://example.com") := by
  refine ⟨(redirect_amended []).1 (by decide), ?_, ?_⟩
  · have h := (redirect_amended
      [(str "to", str "https://example.com"), (str "permanent", str "true")]).2
      (str "https://example.com") (by decide) (by decide)
    rw [h, if_pos (by decide)]
  · have h := (redirect_amended [(str "to", str "https://example.com")]).2
      (str "https://example.com") (by decide) (by decide)
    rw [h, if_neg (by decide)]

/-- Claim C10: a to parameter present but equal to the empty string receives
the same 400 error body as an absent one, because the handler tests
truthiness rather than presence; and a redirect outcome happens only when the
to parameter is a non-empty string, carried verbatim as the location. -/
theorem redirect_truthiness_c10 (ps : List (JStr × JStr)) :
    (paramsGet (str "to") ps = some [] →
      redirectHandler ps = RedirectResult.badRequest redirectErrMsg) ∧
    (paramsGet (str "to") ps = none →
      redirectHandler ps = RedirectResult.badRequest redirectErrMsg) ∧
    (∀ s t, redirectHandler ps = RedirectResult.redirect s t →
      ∃ t0, paramsGet (str "to") ps = some t0 ∧ t0 ≠ [] ∧ t = t0) := by
  refine ⟨?_, ?_, ?_⟩
  · intro h0
    unfold redirectHandler
    rw [h0]
    dsimp only
    rw [if_pos rfl]
  · intro h0
    unfold redirectHandler
    rw [h0]
  · intro s t hr
    unfold redirectHandler at hr
    cases hp : paramsGet (str "to") ps with
    | none =>
      rw [hp] at hr
      exact RedirectResult.noConfusion hr
    | some t0 =>
      rw [hp] at hr
      dsimp only at hr
      by_cases h0 : t0 = []
      · rw [if_pos h0] at hr
        exact RedirectResult.noConfusion hr
      · rw [if_neg h0] at hr
        injection hr with h1 h2
        exact ⟨t0, rfl, h0, h2.symm⟩

theorem redirect_truthiness_c10_witness :
    redirectHandler [(str "to", str "")] = RedirectResult.badRequest redirectErrMsg ∧
    (∃ t0, paramsGet (str "to") [(str "to", str "x")] = some t0 ∧ t0 ≠ [] ∧
      str "x" = t0) :=
  ⟨(redirect_truthiness_c10 [(str "to", str "")]).1 (by decide),
   (redirect_truthiness_c10 [(str "to", str "x")]).2.2 302 (str "x") (by decide)⟩

/-- Claim C9: a request path that is not the bare slash and ends with a slash
is answered by the middleware itself with a 301 redirect to the path with the
trailing slash stripped, and the downstream route handler is never invoked;
every other path is passed through to routing unchanged. -/
theorem trailingSlash_c9 {α : Type} (handler : JStr → α) (p : JStr) :
    (p ≠ str "/" → endsWithSlash p = true →
      serveWithTrailingSlash handler p = ServeOutcome.redirected 301 p.dropLast) ∧
    (¬(p ≠ str "/" ∧ endsWithSlash p = true) →
      serveWithTrailingSlash handler p = ServeOutcome.routed (handler p)) := by
  constructor
  · intro h1 h2
    unfold serveWithTrailingSlash trailingSlashMW
    rw [if_pos ⟨h1, h2⟩]
  · intro hn
    unfold serveWithTrailingSlash trailingSlashMW
    rw [if_neg hn]

theorem trailingSlash_c9_witness :
    serveWithTrailingSlash (fun _ => (0 : Nat)) (str "/get/") =
      ServeOutcome.redirected 301 (str "/get") ∧
    serveWithTrailingSlash (fun q => q) (str "/get") =
      ServeOutcome.routed (str "/get") := by
  constructor
  · have h := (trailingSlash_c9 (fun _ => (0 : Nat)) (str "/get/")).1
      (by decide) (by decide)
    rw [h]
    decide
  · exact (trailingSlash_c9 (fun q => q) (str "/get")).2 (by decide)

/-- Claim C1: bodyInfo is a total function into the decoded-body union, so
every request yields exactly one decoded body and no exception propagates to
the calling handler; whenever any decoding step raises, the result is the
error sentinel with type error and value null; and the body-echoing handler
still produces a 200 response embedding exactly the decoded body. -/
theorem bodyInfo_c1 (r : OakRequest) :
    (decodeRaises r = true → bodyInfo r = DecodedBody.error) ∧
    (postHandler r).status = 200 ∧ (postHandler r).body = bodyInfo r := by
  refine ⟨?_, rfl, rfl⟩
  intro hr
  obtain ⟨ip, url, sp, hd, bt, jv, fdv, fv, tv, bv⟩ := r
  cases bt with
  | error e => rfl
  | ok t =>
    cases t with
    | json =>
      cases jv with
      | error e => rfl
      | ok v => simp [decodeRaises, isErr] at hr
    | formData =>
      cases fdv with
      | error e => rfl
      | ok v => simp [decodeRaises, isErr] at hr
    | form =>
      cases fv with
      | error e => rfl
      | ok v => simp [decodeRaises, isErr] at hr
    | text =>
      cases tv with
      | error e => rfl
      | ok v => simp [decodeRaises, isErr] at hr
    | bytes =>
      cases bv with
      | error e => rfl
      | ok v => simp [decodeRaises, isErr] at hr
    | undef => simp [decodeRaises] at hr

theorem bodyInfo_c1_witness :
    bodyInfo errJsonRequest = DecodedBody.error ∧
    (postHandler errJsonRequest).status = 200 :=
  ⟨(bodyInfo_c1 errJsonRequest).1 rfl, (bodyInfo_c1 errJsonRequest).2.1⟩

end Httpbin
